import Mathlib

/-!
Shallow embedding of `webfs.py`: a scraper presenting web pages as a
directory/file hierarchy.  Pure data and control flow are translated into
executable Lean definitions; external collaborators (HTTP transport, the
regex engine, the HTML parser, the mmry blob store) are passed in as
explicit function parameters or modelled from their stated contracts.
-/

namespace Webfs

/-- Python exception kinds raised by the code under study. -/
inductive PyErr
  | nameError (name : String)
  | valueError (msg : String)
  | attributeError (name : String)
deriving DecidableEq, Repr

/-- Raw response bodies / blob payloads (`bytes` in Python). -/
abbrev Blob := List Nat

/-! ### URL wrap / unwrap (class URL)

`URL` is a `str` subclass whose `__new__` sets the RFC 1808 fields
`scheme, netloc, path, params, query, fragment` — and nothing else; in
particular a `URL` instance has no attribute named `url`.  For
`wrap`/`unwrap` only the wrapper layer matters, so a value is either a
plain string or a URL-wrapped string. -/

inductive PyVal
  | plain (s : String)
  | urlv (s : String)
deriving DecidableEq, Repr

/-- `URL.wrap`: `if isinstance(arg, cls): return arg; return cls(arg)`. -/
def URL.wrap : PyVal → PyVal
  | .urlv s => .urlv s
  | .plain s => .urlv s

/-- `URL.unwrap`: `while isinstance(arg, cls): arg = arg.url; return arg`.
On a URL instance the loop body reads `arg.url`, an attribute `URL.__new__`
never sets, so the attribute lookup fails with `AttributeError('url')`. -/
def URL.unwrap : PyVal → Except PyErr PyVal
  | .urlv _ => .error (.attributeError "url")
  | .plain s => .ok (.plain s)

/-! ### Blob cache registry (module-level FS dict, get_cache, set_cache_root)

`FS = {'cache_root': None, 'caches': {}}` is a single heterogeneous dict:
it holds the two configuration keys and, because `get_cache` writes
`FS[name] = mmry.Cache(...)`, also every cache handle ever constructed. -/

/-- Handle of an external mmry blob store.  Modelled from the spec's
collaborator contract: a backing store is identified by its logical name
and the cache root configured at construction time. -/
structure CacheHandle where
  name : String
  root : Option String
deriving DecidableEq, Repr

/-- A value stored in the `FS` dict: the configured root path, the (never
used) `caches` sub-dict, or a cache handle registered by `get_cache`. -/
inductive FSVal
  | rootVal (r : Option String)
  | cachesVal (d : List (String × CacheHandle))
  | handle (h : CacheHandle)
deriving DecidableEq, Repr

/-- The `FS` dict, as an association list in insertion order. -/
abbrev FSDict := List (String × FSVal)

/-- Initial module state: `FS = {'cache_root': None, 'caches': {}}`. -/
def initFS : FSDict := [("cache_root", .rootVal none), ("caches", .cachesVal [])]

/-- Python dict lookup `FS[name]` (first matching key). -/
def fsGet (fs : FSDict) (k : String) : Option FSVal :=
  match fs with
  | [] => none
  | (k', v) :: rest => if k' = k then some v else fsGet rest k

/-- Python dict assignment `FS[name] = v` (update in place or append). -/
def fsSet (fs : FSDict) (k : String) (v : FSVal) : FSDict :=
  match fs with
  | [] => [(k, v)]
  | (k', v') :: rest => if k' = k then (k, v) :: rest else (k', v') :: fsSet rest k v

/-- `get_cache_root`: `return FS['cache_root']`.  In every reachable state
the key holds a `rootVal`; the wildcard arm is unreachable. -/
def get_cache_root (fs : FSDict) : Option String :=
  match fsGet fs "cache_root" with
  | some (.rootVal r) => r
  | _ => none

/-- `set_cache_root(dir)`: `FS['cache_root'] = dir`. -/
def set_cache_root (fs : FSDict) (dir : String) : FSDict :=
  fsSet fs "cache_root" (.rootVal (some dir))

/-- `get_cache(name)`: `try: return FS[name] except: FS[name] =
mmry.Cache(name, root=get_cache_root()); return FS[name]`.  The third
component records whether a new backing store was constructed. -/
def get_cache (fs : FSDict) (name : String) : FSVal × FSDict × Bool :=
  match fsGet fs name with
  | some v => (v, fs, false)
  | none =>
      let h : CacheHandle := { name := name, root := get_cache_root fs }
      (.handle h, fsSet fs name (.handle h), true)

/-! ### Page.bytes / Page.fetch -/

/-- The fixed `HEADERS` User-Agent string in `Page.fetch`. -/
def browserUserAgent : String :=
  "Mozilla/5.0 (Windows NT 10.0; Win64; x64) AppleWebKit/537.36 (KHTML, like Gecko) Chrome/111.0.0.0 Safari/537.36"

/-- One HTTP GET performed by `requests.get(url, headers=HEADERS)`. -/
structure FetchCall where
  url : String
  userAgent : String
deriving DecidableEq, Repr

/-- Failure kinds of `cache.load_blob`; the bare `except:` in
`Page.bytes` catches every one of them, not only `notFound`. -/
inductive LoadErr
  | notFound
  | ioError (msg : String)
deriving DecidableEq, Repr

/-- `Page.fetch`: GET the page's url with the fixed browser header.  The
network is an explicit parameter `net` mapping (url, user-agent) to the
response body; the second component records the request made. -/
def Page.fetch (net : String → String → Blob) (url : String) : Blob × FetchCall :=
  (net url browserUserAgent, ⟨url, browserUserAgent⟩)

/-- Result of one `Page.bytes()` call: the returned bytes, the in-process
memo afterwards (`functools.lru_cache`), and the fetches and blob-cache
saves performed during the call. -/
structure BytesOutcome where
  value : Blob
  memo : Option Blob
  fetches : List FetchCall
  saves : List (String × Blob)
deriving DecidableEq, Repr

/-- `Page.bytes`: return the lru_cache memo when present; otherwise
`try: page = cache.load_blob(url) except: page = self.fetch();
cache.save_blob(url, page); return page`.  `load` is the outcome of
`cache.load_blob(url)`. -/
def Page.bytesImpl (net : String → String → Blob) (url : String)
    (memo : Option Blob) (load : Except LoadErr Blob) : BytesOutcome :=
  match memo with
  | some b => ⟨b, some b, [], []⟩
  | none =>
    match load with
    | .ok page => ⟨page, some page, [], []⟩
    | .error _ =>
        let fr := Page.fetch net url
        ⟨fr.1, some fr.1, [fr.2], [(url, fr.1)]⟩

/-- Modelled from the spec: the mmry blob store's `load_blob` contract —
keyed retrieval raising a NotFound-class error when no blob is stored
under the url. -/
def load_blob (store : List (String × Blob)) (url : String) : Except LoadErr Blob :=
  match store.find? (fun p => p.1 == url) with
  | some p => .ok p.2
  | none => .error .notFound

/-! ### Parsed DOM elements and annotated strings

A bs4 tag, abstracted to what the code reads: its string serialisation
(`str(elem)`) and its parent chain; the document root's `.parent` is
`None`. -/

inductive Elem
  | root (html : String)
  | node (html : String) (up : Elem)
deriving DecidableEq, Repr

/-- `str(elem)`. -/
def Elem.render : Elem → String
  | .root h => h
  | .node h _ => h

/-- `elem.parent`: `None` for the document root. -/
def Elem.parentOf : Elem → Option Elem
  | .root _ => none
  | .node _ up => some up

/-- A Python string value together with the optional `elem` attribute that
`NavigableString.__new__` attaches.  Plain `str` and `URL` values have no
`elem` attribute. -/
structure PyStr where
  val : String
  elem : Option Elem
deriving DecidableEq, Repr

/-- `NavigableString(object, elem)`: the string of `object` carrying the
source element. -/
def NavigableString.new (s : String) (e : Elem) : PyStr := ⟨s, some e⟩

/-- `URL.__new__` builds a fresh str from the argument's characters and
sets only the six RFC 1808 fields; an `elem` attribute on the argument is
NOT carried over. -/
def URL.new (s : PyStr) : PyStr := ⟨s.val, none⟩

/-- `Page.__init__`: `self.url = URL(url)`. -/
def Page.initUrl (u : PyStr) : PyStr := URL.new u

/-- An anchor or img element as `Dir.list_links` / `Dir.list_images` reads
it: the value of the queried attribute (`elem.get('href')` resp.
`elem.get('src')`, `none` when absent) and the element itself. -/
structure Tag where
  attr : Option String
  elem : Elem
deriving DecidableEq, Repr

/-! ### Dir.list_links / Dir.list_images -/

/-- Suffix test on the character sequences of two strings. -/
def strEndsWith (s suffix : String) : Bool :=
  suffix.data.isSuffixOf s.data

/-- The href filter `re.search('[.](jpg|png|webm)$', href)`: with Python
semantics, `$` matches at the very end of the string and also just before
a newline that is the last character.  So the search succeeds exactly when
the href ends in `.jpg`, `.png` or `.webm`, possibly followed by one final
newline. -/
def deniedHref (h : String) : Bool :=
  ["jpg", "png", "webm"].any (fun ext =>
    strEndsWith h ("." ++ ext) || strEndsWith h ("." ++ ext ++ "\n"))

/-- Keep-first deduplication worker: Python's `set(urls)` keeps, for each
string value, the first NavigableString added (later equal strings are
ignored). -/
def dedupGo : List PyStr → List String → List PyStr
  | [], _ => []
  | x :: xs, seen =>
      if x.val ∈ seen then dedupGo xs seen else x :: dedupGo xs (x.val :: seen)

/-- `set(urls)` as an operation on the build order of the list. -/
def dedupByVal (l : List PyStr) : List PyStr := dedupGo l []

/-- The order NavigableStrings are compared in: `str` comparison of their
values (code-point lexicographic, what `sorted` uses). -/
def byVal (x y : PyStr) : Prop := x.val ≤ y.val

instance : DecidableRel byVal := fun x y => inferInstanceAs (Decidable (x.val ≤ y.val))

instance : IsTotal PyStr byVal := ⟨fun x y => le_total x.val y.val⟩

instance : IsTrans PyStr byVal := ⟨fun _ _ _ hab hbc => le_trans hab hbc⟩

/-- The `urls` list built by the loop of `Dir.list_links`: skip anchors
without an href, skip hrefs the image-extension regex matches, resolve
the rest against the page's own url (`abspath`, the external `urljoin`)
and wrap each with its source element. -/
def linkUrls (abspath : String → String) (anchors : List Tag) : List PyStr :=
  anchors.filterMap (fun t =>
    match t.attr with
    | none => none
    | some href =>
        if deniedHref href then none
        else some (NavigableString.new (abspath href) t.elem))

/-- `Dir.list_links`: build `urls` by the anchor scan, then
`sorted(set(urls))`. -/
def Dir.list_links (abspath : String → String) (anchors : List Tag) : List PyStr :=
  List.insertionSort byVal (dedupByVal (linkUrls abspath anchors))

/-- The `urls` list built by the loop of `Dir.list_images`: `img`
elements' `src` attribute, with no extension filtering. -/
def imageUrls (abspath : String → String) (imgs : List Tag) : List PyStr :=
  imgs.filterMap (fun t =>
    match t.attr with
    | none => none
    | some src => some (NavigableString.new (abspath src) t.elem))

/-- `Dir.list_images`: build `urls` by the img scan, then
`sorted(set(urls))`. -/
def Dir.list_images (abspath : String → String) (imgs : List Tag) : List PyStr :=
  List.insertionSort byVal (dedupByVal (imageUrls abspath imgs))

/-- The denylist the claim describes: hrefs that end in `.jpg`, `.png` or
`.webm` (case-sensitive, anchored at the very end of the string).  Used
only to compare the claim's wording with the code's regex. -/
def claimedDeniedHref (h : String) : Bool :=
  ["jpg", "png", "webm"].any (fun ext => strEndsWith h ("." ++ ext))

/-- The claim's version of `Dir.list_links` (resolved hrefs surviving the
claimed denylist, deduplicated and sorted), for refinement comparison. -/
def claimedListLinks (abspath : String → String) (anchors : List Tag) : List PyStr :=
  List.insertionSort byVal (dedupByVal (anchors.filterMap (fun t =>
    match t.attr with
    | none => none
    | some href =>
        if claimedDeniedHref href then none
        else some (NavigableString.new (abspath href) t.elem))))

/-! ### Dir.ls and children -/

inductive EntryKind
  | dir
  | file
deriving DecidableEq, Repr

/-- A child Page object (`Dir(url)` or `File(url)`): its kind and the
`self.url` set by `Page.__init__`. -/
structure Entry where
  kind : EntryKind
  url : PyStr
deriving DecidableEq, Repr

/-- `Dir.define_dirs`: `[Dir(url) for url in self.list_links()]`. -/
def Dir.define_dirs (abspath : String → String) (anchors : List Tag) : List Entry :=
  (Dir.list_links abspath anchors).map (fun ns => ⟨.dir, Page.initUrl ns⟩)

/-- `Dir.define_files`: `[File(url) for url in self.list_images()]`. -/
def Dir.define_files (abspath : String → String) (imgs : List Tag) : List Entry :=
  (Dir.list_images abspath imgs).map (fun ns => ⟨.file, Page.initUrl ns⟩)

/-- Per-instance state of `Dir.ls`'s `functools.lru_cache` memo. -/
structure DirState where
  lsCache : Option (List Entry)
deriving DecidableEq, Repr

/-- `Dir.ls`: `dirs = self.define_dirs(); files = self.define_files();
return List(dirs + files)`, memoized per instance by `lru_cache`. -/
def Dir.ls (abspath : String → String) (anchors imgs : List Tag)
    (st : DirState) : List Entry × DirState :=
  match st.lsCache with
  | some v => (v, st)
  | none =>
      let v := Dir.define_dirs abspath anchors ++ Dir.define_files abspath imgs
      (v, ⟨some v⟩)

/-! ### Dir.prefetch

`prefetch` submits `item.page` for every item of `self.ls()` to a worker
pool, then reads every future's `result()`; `fut.result()` re-raises the
exception of a failed fetch.  All submissions happen before any result is
read, so every child's fetch runs even when another child's fails; which
failing child's exception surfaces first depends on completion order and
is modelled as the first in list order. -/
def Dir.prefetch (fetchOutcome : String → Except PyErr Unit)
    (items : List Entry) : List String × Except PyErr (List Entry) :=
  match items.findSome? (fun it =>
      match fetchOutcome it.url.val with
      | .error e => some e
      | .ok _ => none) with
  | some e => (items.map (fun it => it.url.val), .error e)
  | none => (items.map (fun it => it.url.val), .ok items)

/-! ### match and List.grep -/

/-- The parent walk in `match`: `while context > 0: elem = elem.parent;
context -= 1`.  Walking past the document root reads `.parent` on `None`
and raises `AttributeError`. -/
def walkUp : Option Elem → Nat → Except PyErr (Option Elem)
  | e?, 0 => .ok e?
  | some e, Nat.succ n => walkUp (Elem.parentOf e) n
  | none, Nat.succ _ => .error (.attributeError "parent")

/-- `str(elem)` where `elem` may have become `None`. -/
def strOfElem? : Option Elem → String
  | none => "None"
  | some e => e.render

/-- The module-level `match(regex, string, context=0, **kwds)`.  The
external `re.search` is the parameter `rmatch` (case-insensitive flag,
pattern, string).  With `context == 0` it searches the string itself;
otherwise it requires the string's `elem` attribute, walks `context`
parents up and searches the serialised element. -/
def matchFn (rmatch : Bool → String → String → Bool) (i : Bool)
    (regex : String) (s : PyStr) (context : Nat) : Except PyErr Bool :=
  if context = 0 then .ok (rmatch i regex s.val)
  else
    match s.elem with
    | none => .error (.valueError ("Not navigable: " ++ s.val))
    | some e => do
        let e? ← walkUp (some e) context
        .ok (rmatch i regex (strOfElem? e?))

/-- A Python list comprehension `[o for o in self if f(o)]` whose filter
may raise: conditions run left to right and the first exception aborts. -/
def exceptFilter {α} (f : α → Except PyErr Bool) : List α → Except PyErr (List α)
  | [] => .ok []
  | o :: os => do
      let b ← f o
      let rest ← exceptFilter f os
      .ok (if b then o :: rest else rest)

/-- `str(bool)` in Python. -/
def pyBool (b : Bool) : String := if b then "True" else "False"

/-- `List.grep(regex, r=False, i=False, C=0)`.  Branches in source order:
plain url match; contextual match; recursive match — whose first statement
is `prefetch(self)`, a reference to a global name that does not exist in
the module (only `Dir` has a `prefetch` method), hence `NameError`; else
`raise ValueError` naming the conflicting options. -/
def PyList.grep (rmatch : Bool → String → String → Bool) (entries : List Entry)
    (regex : String) (r : Bool) (i : Bool) (C : Nat) : Except PyErr (List Entry) :=
  if r = false ∧ C = 0 then
    exceptFilter (fun o => matchFn rmatch i regex o.url 0) entries
  else if C ≠ 0 ∧ r = false then
    exceptFilter (fun o => matchFn rmatch i regex o.url C) entries
  else if r = true ∧ C = 0 then
    .error (.nameError "prefetch")
  else
    .error (.valueError ("Bad grep options: " ++ regex ++ ", recursive=" ++
      pyBool r ++ ", context=" ++ toString C))

/-- `List.__getattr__(attr)`: delegate to the single element when
`len(self) == 1`, else `raise AttributeError(attr)`.  The delegated
lookup itself is the external `getattr(self[0], attr)`, passed in as
`delegate`. -/
def PyList.getattrFallback {α β} (delegate : α → String → Except PyErr β)
    (entries : List α) (attr : String) : Except PyErr β :=
  match entries with
  | [o] => delegate o attr
  | _ => .error (.attributeError attr)

/-! ## Theorems -/

/-! ### Helper lemmas about keep-first deduplication -/

theorem mem_of_mem_dedupGo {p : PyStr} :
    ∀ {l : List PyStr} {seen : List String}, p ∈ dedupGo l seen → p ∈ l := by
  intro l
  induction l with
  | nil => intro seen h; simp [dedupGo] at h
  | cons x xs ih =>
      intro seen h
      by_cases hx : x.val ∈ seen
      · simp only [dedupGo, if_pos hx] at h
        exact List.mem_cons_of_mem x (ih h)
      · simp only [dedupGo, if_neg hx] at h
        rcases List.mem_cons.mp h with h | h
        · exact h ▸ List.mem_cons_self x xs
        · exact List.mem_cons_of_mem x (ih h)

theorem mem_map_val_dedupGo {u : String} :
    ∀ {l : List PyStr} {seen : List String},
      u ∈ (dedupGo l seen).map PyStr.val ↔ u ∈ l.map PyStr.val ∧ u ∉ seen := by
  intro l
  induction l with
  | nil => intro seen; simp [dedupGo]
  | cons x xs ih =>
      intro seen
      by_cases hx : x.val ∈ seen
      · simp only [dedupGo, if_pos hx, ih, List.map_cons, List.mem_cons]
        constructor
        · rintro ⟨hm, hs⟩; exact ⟨Or.inr hm, hs⟩
        · rintro ⟨hm | hm, hs⟩
          · exact absurd (hm ▸ hx) hs
          · exact ⟨hm, hs⟩
      · simp only [dedupGo, if_neg hx, List.map_cons, List.mem_cons, ih]
        constructor
        · rintro (h | ⟨hm, hs⟩)
          · exact ⟨Or.inl h, h ▸ hx⟩
          · exact ⟨Or.inr hm, fun hu => hs (Or.inr hu)⟩
        · rintro ⟨h | hm, hs⟩
          · exact Or.inl h
          · by_cases hux : u = x.val
            · exact Or.inl hux
            · exact Or.inr ⟨hm, fun hu => hu.elim hux hs⟩

theorem nodup_map_val_dedupGo :
    ∀ {l : List PyStr} {seen : List String}, ((dedupGo l seen).map PyStr.val).Nodup := by
  intro l
  induction l with
  | nil => intro seen; simp [dedupGo]
  | cons x xs ih =>
      intro seen
      by_cases hx : x.val ∈ seen
      · simpa only [dedupGo, if_pos hx] using ih
      · simp only [dedupGo, if_neg hx, List.map_cons, List.nodup_cons]
        refine ⟨fun hmem => ?_, ih⟩
        have := (mem_map_val_dedupGo.mp hmem).2
        exact this (List.mem_cons_self _ _)

/-! ### Helper lemmas about list_links -/

theorem mem_map_val_sort {u : String} {l : List PyStr} :
    u ∈ (List.insertionSort byVal l).map PyStr.val ↔ u ∈ l.map PyStr.val := by
  simp only [List.mem_map]
  constructor
  · rintro ⟨p, hp, hv⟩; exact ⟨p, (List.mem_insertionSort byVal).mp hp, hv⟩
  · rintro ⟨p, hp, hv⟩; exact ⟨p, (List.mem_insertionSort byVal).mpr hp, hv⟩

theorem mem_map_val_linkUrls {abspath : String → String} {anchors : List Tag}
    {u : String} :
    u ∈ (linkUrls abspath anchors).map PyStr.val ↔
      ∃ t ∈ anchors, ∃ h, t.attr = some h ∧ deniedHref h = false ∧ u = abspath h := by
  simp only [linkUrls, List.mem_map, List.mem_filterMap]
  constructor
  · rintro ⟨p, ⟨t, ht, hf⟩, hv⟩
    rcases hattr : t.attr with _ | href
    · simp [hattr] at hf
    · simp only [hattr] at hf
      by_cases hden : deniedHref href
      · simp [hden] at hf
      · rw [if_neg hden] at hf
        refine ⟨t, ht, href, hattr, by simpa using hden, ?_⟩
        have hp := Option.some.inj hf
        subst hp
        exact hv.symm
  · rintro ⟨t, ht, href, hattr, hden, hu⟩
    refine ⟨NavigableString.new (abspath href) t.elem, ⟨t, ht, ?_⟩, hu.symm⟩
    simp [hattr, hden]

theorem mem_map_val_list_links {abspath : String → String} {anchors : List Tag}
    {u : String} :
    u ∈ (Dir.list_links abspath anchors).map PyStr.val ↔
      ∃ t ∈ anchors, ∃ h, t.attr = some h ∧ deniedHref h = false ∧ u = abspath h := by
  rw [Dir.list_links, mem_map_val_sort]
  rw [show dedupByVal (linkUrls abspath anchors)
        = dedupGo (linkUrls abspath anchors) [] from rfl]
  rw [mem_map_val_dedupGo, mem_map_val_linkUrls]
  simp

theorem nodup_map_val_list_links {abspath : String → String} {anchors : List Tag} :
    ((Dir.list_links abspath anchors).map PyStr.val).Nodup := by
  rw [Dir.list_links]
  have hperm := (List.perm_insertionSort byVal (dedupByVal (linkUrls abspath anchors))).map PyStr.val
  exact hperm.symm.nodup nodup_map_val_dedupGo

theorem sorted_map_val_list_links {abspath : String → String} {anchors : List Tag} :
    ((Dir.list_links abspath anchors).map PyStr.val).Sorted (fun a b => a ≤ b) := by
  rw [Dir.list_links, List.Sorted, List.pairwise_map]
  exact List.sorted_insertionSort byVal _

/-! ### Claim theorems -/

/-- C1: `Page.bytes` returns the in-process memoized value when present;
otherwise it returns the blob-cache load on success; on ANY load failure
it performs exactly one network fetch with the fixed browser User-Agent,
saves the fetched bytes under the page's url and returns them; and a
never-saved url loads as `notFound`, hence triggers exactly one fetch and
exactly one save. -/
theorem page_bytes_cache_behaviour (net : String → String → Blob) (url : String) :
    (∀ b load, Page.bytesImpl net url (some b) load = ⟨b, some b, [], []⟩)
    ∧ (∀ b, Page.bytesImpl net url none (.ok b) = ⟨b, some b, [], []⟩)
    ∧ (∀ e, Page.bytesImpl net url none (.error e) =
        ⟨net url browserUserAgent, some (net url browserUserAgent),
         [⟨url, browserUserAgent⟩], [(url, net url browserUserAgent)]⟩)
    ∧ (∀ store : List (String × Blob), store.find? (fun p => p.1 == url) = none →
        Page.bytesImpl net url none (load_blob store url) =
          ⟨net url browserUserAgent, some (net url browserUserAgent),
           [⟨url, browserUserAgent⟩], [(url, net url browserUserAgent)]⟩) := by
  refine ⟨fun b load => rfl, fun b => rfl, fun e => rfl, fun store h => ?_⟩
  unfold load_blob
  rw [h]
  rfl

/-- C1 witness: on an empty blob store (a never-saved url) and no memo,
one `bytes()` call fetches once with the browser header and saves once. -/
theorem page_bytes_cache_behaviour_witness :
    Page.bytesImpl (fun _ _ => [7]) "http://x" none (load_blob [] "http://x")
      = ⟨[7], some [7], [⟨"http://x", browserUserAgent⟩], [("http://x", [7])]⟩ :=
  (page_bytes_cache_behaviour (fun _ _ => [7]) "http://x").2.2.2 [] rfl

/-- C2 (amended): `list_links` returns exactly the hrefs of anchors that
have an href the image-extension regex does not match — i.e. the raw href
neither ends in `.jpg`/`.png`/`.webm` nor in those followed by one final
newline (Python `$` semantics) — each resolved against the page's url,
with no duplicate url strings, sorted ascending by url string order. -/
theorem list_links_characterization (abspath : String → String) (anchors : List Tag) :
    ((Dir.list_links abspath anchors).map PyStr.val).Nodup
    ∧ ((Dir.list_links abspath anchors).map PyStr.val).Sorted (fun a b => a ≤ b)
    ∧ ∀ u, u ∈ (Dir.list_links abspath anchors).map PyStr.val ↔
        ∃ t ∈ anchors, ∃ h, t.attr = some h ∧ deniedHref h = false ∧ u = abspath h :=
  ⟨nodup_map_val_list_links, sorted_map_val_list_links, fun _ => mem_map_val_list_links⟩

/-- C2 witness: a lone non-denied href survives into the sorted output. -/
theorem list_links_characterization_witness :
    ("sub/" ∈ (Dir.list_links (fun s => s) [⟨some "sub/", Elem.root "r"⟩]).map PyStr.val)
    ∧ ((Dir.list_links (fun s => s) [⟨some "sub/", Elem.root "r"⟩]).map PyStr.val).Nodup := by
  have h := list_links_characterization (fun s => s) [⟨some "sub/", Elem.root "r"⟩]
  exact ⟨(h.2.2 "sub/").mpr ⟨⟨some "sub/", Elem.root "r"⟩, by simp, "sub/", rfl, by decide, rfl⟩, h.1⟩

/-- C2 counterexample: the href string `a.jpg` followed by a newline does
not end in `.jpg`, `.png` or `.webm`, yet the code's regex matches it
(`$` also matches just before a final newline), so `list_links` drops it
while the claim as stated keeps it. -/
theorem list_links_trailing_newline_cx :
    claimedDeniedHref "a.jpg\n" = false
    ∧ Dir.list_links (fun s => s) [⟨some "a.jpg\n", Elem.root "r"⟩] = []
    ∧ claimedListLinks (fun s => s) [⟨some "a.jpg\n", Elem.root "r"⟩]
        = [⟨"a.jpg\n", some (Elem.root "r")⟩] := by
  refine ⟨by decide, by decide, by decide⟩

/-- C3: `ls` is the Directory entries from `list_links` followed by the
File entries from `list_images`, concatenated without re-sorting, and the
result is memoized: calling `ls` again on the state a call produced
returns the identical cached list and leaves the state unchanged. -/
theorem ls_concat_and_memo (abspath : String → String) (anchors imgs : List Tag) :
    (Dir.ls abspath anchors imgs ⟨none⟩).1
        = Dir.define_dirs abspath anchors ++ Dir.define_files abspath imgs
    ∧ ∀ st v st', Dir.ls abspath anchors imgs st = (v, st') →
        Dir.ls abspath anchors imgs st' = (v, st') := by
  refine ⟨rfl, fun st v st' h => ?_⟩
  cases st with
  | mk c =>
      cases c with
      | none => cases h; rfl
      | some v0 => cases h; rfl

/-- C3 witness: on an empty page the second `ls` call returns the cached
empty listing unchanged. -/
theorem ls_concat_and_memo_witness :
    Dir.ls (fun s => s) [] [] ⟨some []⟩ = ([], ⟨some []⟩) :=
  (ls_concat_and_memo (fun s => s) [] []).2 ⟨none⟩ [] ⟨some []⟩ rfl

/-- C4: recursive grep evaluates the module-level name `prefetch`, which
is not defined (only `Dir` has a `prefetch` method), so for every
collection and pattern it raises NameError instead of prefetching and
filtering by page text. -/
theorem grep_recursive_name_error (rmatch : Bool → String → String → Bool)
    (entries : List Entry) (regex : String) (i : Bool) :
    PyList.grep rmatch entries regex true i 0 = .error (.nameError "prefetch") := by
  simp [PyList.grep]

/-- Every entry `ls` produces carries a url whose `elem` attribute is
gone: `Page.__init__` rebuilt it with `URL(...)`. -/
theorem ls_entry_url_elem_none {abspath : String → String} {anchors imgs : List Tag}
    {ent : Entry} (h : ent ∈ (Dir.ls abspath anchors imgs ⟨none⟩).1) :
    ent.url.elem = none := by
  have h' : ent ∈ Dir.define_dirs abspath anchors ++ Dir.define_files abspath imgs := h
  rcases List.mem_append.mp h' with h'' | h''
  · simp only [Dir.define_dirs] at h''
    obtain ⟨ns, _, rfl⟩ := List.mem_map.mp h''
    rfl
  · simp only [Dir.define_files] at h''
    obtain ⟨ns, _, rfl⟩ := List.mem_map.mp h''
    rfl

/-- C5: contextual grep over a nonempty Listing raises the Not-navigable
ValueError at its first entry, although every Listing entry was produced
via the annotation path — `Page.__init__` re-wraps the NavigableString in
`URL(...)`, which loses the `elem` back-reference, so the exemption the
claim describes never applies. -/
theorem grep_context_fails_on_listing (rmatch : Bool → String → String → Bool)
    (i : Bool) (regex : String) (abspath : String → String)
    (anchors imgs : List Tag) (C : Nat) (hC : C ≠ 0) (e : Entry) (es : List Entry)
    (heq : (Dir.ls abspath anchors imgs ⟨none⟩).1 = e :: es) :
    PyList.grep rmatch ((Dir.ls abspath anchors imgs ⟨none⟩).1) regex false i C
      = .error (.valueError ("Not navigable: " ++ e.url.val)) := by
  have helem : e.url.elem = none :=
    ls_entry_url_elem_none (heq ▸ List.mem_cons_self e es)
  rw [heq]
  have hm : matchFn rmatch i regex e.url C
      = .error (.valueError ("Not navigable: " ++ e.url.val)) := by
    unfold matchFn
    rw [if_neg hC, helem]
  unfold PyList.grep
  rw [if_neg (fun hcon => hC hcon.2), if_pos ⟨hC, rfl⟩]
  unfold exceptFilter
  rw [hm]
  rfl

/-- C5 witness: a directory page with a single anchor produces one entry,
and contextual grep on its listing raises Not navigable. -/
theorem grep_context_fails_on_listing_witness :
    PyList.grep (fun _ _ _ => true)
        ((Dir.ls (fun s => s) [⟨some "sub/", Elem.root "r"⟩] [] ⟨none⟩).1)
        "x" false false 1
      = .error (.valueError ("Not navigable: " ++ "sub/")) :=
  grep_context_fails_on_listing (fun _ _ _ => true) false "x" (fun s => s)
    [⟨some "sub/", Elem.root "r"⟩] [] 1 (by decide)
    ⟨.dir, ⟨"sub/", none⟩⟩ [] rfl

/-- C6: `URL.wrap` is idempotent, but `URL.unwrap` applied to a URL
instance raises AttributeError instead of yielding a plain string: the
loop body `arg = arg.url` reads an attribute `URL` never defines. -/
theorem wrap_idempotent_unwrap_raises :
    (∀ v, URL.wrap (URL.wrap v) = URL.wrap v)
    ∧ (∀ s, URL.unwrap (PyVal.plain s) = .ok (.plain s))
    ∧ URL.unwrap (PyVal.urlv "http://example.com")
        = .error (.attributeError "url") := by
  refine ⟨fun v => ?_, fun s => rfl, rfl⟩
  cases v <;> rfl

/-- When every child's fetch succeeds, reading the futures finds no
exception. -/
theorem prefetch_findSome_none {f : String → Except PyErr Unit} {items : List Entry}
    (h : ∀ it ∈ items, f it.url.val = .ok ()) :
    items.findSome? (fun it =>
      match f it.url.val with
      | .error e => some e
      | .ok _ => none) = none := by
  induction items with
  | nil => rfl
  | cons a l ih =>
      have ha := h a (List.mem_cons_self a l)
      simp only [List.findSome?_cons, ha]
      exact ih (fun it hit => h it (List.mem_cons_of_mem a hit))

/-- When some child's fetch fails, reading the futures finds an
exception. -/
theorem prefetch_findSome_some {f : String → Except PyErr Unit} {items : List Entry}
    {it : Entry} (hit : it ∈ items) {e : PyErr} (he : f it.url.val = .error e) :
    ∃ e', items.findSome? (fun it =>
      match f it.url.val with
      | .error e => some e
      | .ok _ => none) = some e' := by
  rcases hfs : items.findSome? (fun it =>
      match f it.url.val with
      | .error e => some e
      | .ok _ => none) with _ | e'
  · have := (List.findSome?_eq_none_iff.mp hfs) it hit
    rw [he] at this
    simp at this
  · exact ⟨e', hfs⟩

/-- C7 (amended): `prefetch` submits a fetch for every child before
reading any result, so one child's failure does not prevent the other
children's fetches; when all succeed it returns the same Listing, but
when any child's fetch fails the exception propagates out of `prefetch`
itself via `fut.result()`. -/
theorem prefetch_submits_all_but_propagates (f : String → Except PyErr Unit)
    (items : List Entry) :
    (Dir.prefetch f items).1 = items.map (fun it => it.url.val)
    ∧ ((∀ it ∈ items, f it.url.val = .ok ())
        → Dir.prefetch f items = (items.map (fun it => it.url.val), .ok items))
    ∧ (∀ it ∈ items, ∀ e, f it.url.val = .error e
        → ∃ e', (Dir.prefetch f items).2 = .error e') := by
  refine ⟨?_, fun h => ?_, fun it hit e he => ?_⟩
  · unfold Dir.prefetch
    rcases hfs : items.findSome? (fun it =>
        match f it.url.val with
        | .error e => some e
        | .ok _ => none) with _ | e' <;> rw [hfs]
  · unfold Dir.prefetch
    rw [prefetch_findSome_none h]
  · obtain ⟨e', hfs⟩ := prefetch_findSome_some hit he
    refine ⟨e', ?_⟩
    unfold Dir.prefetch
    rw [hfs]

/-- C7 witness: with every fetch succeeding, prefetch submits both
children and returns the same listing. -/
theorem prefetch_submits_all_but_propagates_witness :
    Dir.prefetch (fun _ => .ok ()) [⟨.dir, ⟨"http://a", none⟩⟩]
      = (["http://a"], .ok [⟨.dir, ⟨"http://a", none⟩⟩]) :=
  (prefetch_submits_all_but_propagates (fun _ => .ok ())
      [⟨.dir, ⟨"http://a", none⟩⟩]).2.1 (fun _ _ => rfl)

/-- C7 counterexample: one failing child makes the exception propagate
out of `prefetch` itself, even though both children's fetches were
submitted. -/
theorem prefetch_propagates_cx :
    Dir.prefetch
        (fun u => if u = "http://b" then .error (.valueError "boom") else .ok ())
        [⟨.dir, ⟨"http://a", none⟩⟩, ⟨.dir, ⟨"http://b", none⟩⟩]
      = (["http://a", "http://b"], .error (.valueError "boom")) := rfl

/-- C8: grep with recursive=true and context>0 raises the bad-options
ValueError naming both conflicting options, for every collection and
pattern. -/
theorem grep_recursive_context_conflict (rmatch : Bool → String → String → Bool)
    (entries : List Entry) (regex : String) (i : Bool) (C : Nat) (hC : C ≠ 0) :
    PyList.grep rmatch entries regex true i C
      = .error (.valueError ("Bad grep options: " ++ regex ++
          ", recursive=" ++ pyBool true ++ ", context=" ++ toString C)) := by
  simp [PyList.grep, hC]

/-- C8 witness: recursive grep with context 2 on the empty collection is
rejected with the bad-options error. -/
theorem grep_recursive_context_conflict_witness :
    PyList.grep (fun _ _ _ => true) [] "x" true false 2
      = .error (.valueError ("Bad grep options: " ++ "x" ++
          ", recursive=" ++ pyBool true ++ ", context=" ++ toString 2)) :=
  grep_recursive_context_conflict (fun _ _ _ => true) [] "x" false 2 (by decide)

/-- C9: an attribute access not handled by the collection type delegates
to the single contained element exactly when the collection has one
element; with zero or with two or more elements it raises
AttributeError(attr). -/
theorem getattr_single_element_delegation {α β : Type} (delegate : α → String → Except PyErr β)
    (attr : String) :
    (∀ o, PyList.getattrFallback delegate [o] attr = delegate o attr)
    ∧ PyList.getattrFallback delegate ([] : List α) attr = .error (.attributeError attr)
    ∧ (∀ a b rest, PyList.getattrFallback delegate (a :: b :: rest) attr
        = .error (.attributeError attr)) :=
  ⟨fun _ => rfl, rfl, fun _ _ _ => rfl⟩

/-- C10: `get_cache` reads the same FS dict that holds the configuration
keys, so the reserved names return the configuration values themselves —
the configured root (possibly none) for `cache_root`, the internal dict
for `caches` — and construct no backing store. -/
theorem get_cache_reserved_names :
    (∀ fs r, fsGet fs "cache_root" = some (.rootVal r) →
        get_cache fs "cache_root" = (.rootVal r, fs, false))
    ∧ (∀ fs d, fsGet fs "caches" = some (.cachesVal d) →
        get_cache fs "caches" = (.cachesVal d, fs, false))
    ∧ get_cache initFS "cache_root" = (.rootVal none, initFS, false)
    ∧ get_cache initFS "caches" = (.cachesVal [], initFS, false)
    ∧ (∀ dir, get_cache (set_cache_root initFS dir) "cache_root"
        = (.rootVal (some dir), set_cache_root initFS dir, false)) := by
  refine ⟨fun fs r h => ?_, fun fs d h => ?_, rfl, rfl, fun dir => rfl⟩
  · unfold get_cache
    rw [h]
  · unfold get_cache
    rw [h]

/-- C10 witness: with a configured root, `get_cache` on `cache_root`
returns that root and registers nothing. -/
theorem get_cache_reserved_names_witness :
    get_cache [("cache_root", .rootVal (some "/tmp/c")), ("caches", .cachesVal [])]
        "cache_root"
      = (.rootVal (some "/tmp/c"),
         [("cache_root", .rootVal (some "/tmp/c")), ("caches", .cachesVal [])],
         false) :=
  get_cache_reserved_names.1 _ (some "/tmp/c") rfl

end Webfs
